import Mathlib

/-!
Verification development for the `server2` repository (files `server2.py`
and `server3.py`): a shallow embedding of the session, quiz, document-index
and fuzzy-correction logic, with theorems settling the specification claims.

Text is embedded as `List Char`; Python string operations (`strip`,
`split`, `lower`, `replace`) are modelled by executable functions below.
External collaborators (OpenAI model calls, FAISS embeddings, the fuzzy
string-matching scorer, PDF extraction) are treated as opaque parameters,
exactly as the specification's §6 prescribes.
-/

/-- Python strings are embedded as lists of characters. -/
abbrev Str := List Char

/-- Model of Python's notion of ASCII whitespace used by `str.strip()` and
`str.split()`. -/
def pyIsSpace (c : Char) : Bool :=
  c = ' ' || c = '\t' || c = '\n' || c = '\r' || c = '\x0b' || c = '\x0c'

/-- Model of Python `str.strip()`: removes leading and trailing whitespace. -/
def pyStrip (s : Str) : Str :=
  ((s.dropWhile pyIsSpace).reverse.dropWhile pyIsSpace).reverse

/-- Model of Python `str.lower()` (per-character lowering). -/
def pyLower (s : Str) : Str := s.map Char.toLower

/-- Splits a string at every occurrence of the separator character, keeping
empty pieces: model of Python `str.split(sep)` for a one-character `sep`. -/
def pySplitChar (sep : Char) : Str → List Str
  | [] => [[]]
  | c :: rest =>
    if c = sep then [] :: pySplitChar sep rest
    else
      match pySplitChar sep rest with
      | [] => [[c]]
      | piece :: pieces => (c :: piece) :: pieces

/-- Joins pieces with a single separator character between them (inverse of
`pySplitChar`). -/
def joinSep (sep : Char) : List Str → Str
  | [] => []
  | [p] => p
  | p :: q :: rest => p ++ sep :: joinSep sep (q :: rest)

/-- Model of Python `str.split()` with no argument: split on whitespace
runs, discarding empty pieces. -/
def pySplitWhitespace (s : Str) : List Str :=
  ((pySplitChar ' ' (s.map (fun c => if pyIsSpace c then ' ' else c)))).filter (· ≠ [])

/-- A string consisting only of whitespace characters. -/
def allSpace (s : Str) : Prop := ∀ c ∈ s, pyIsSpace c

instance (s : Str) : Decidable (allSpace s) := by
  unfold allSpace; infer_instance

theorem pySplitChar_ne_nil (sep : Char) (s : Str) : pySplitChar sep s ≠ [] := by
  cases s with
  | nil => simp [pySplitChar]
  | cons c rest =>
    unfold pySplitChar
    by_cases h : c = sep
    · simp [h]
    · simp only [if_neg h]
      cases hrest : pySplitChar sep rest with
      | nil => simp
      | cons piece pieces => simp

theorem joinSep_pySplitChar (sep : Char) (s : Str) :
    joinSep sep (pySplitChar sep s) = s := by
  induction s with
  | nil => rfl
  | cons c rest ih =>
    unfold pySplitChar
    obtain ⟨piece, pieces, hrest⟩ :=
      List.exists_cons_of_ne_nil (pySplitChar_ne_nil sep rest)
    rw [hrest] at ih
    by_cases h : c = sep
    · simp only [if_pos h, hrest]
      show joinSep sep ([] :: piece :: pieces) = c :: rest
      cases pieces with
      | nil => simp [joinSep] at ih ⊢; simp [ih, h]
      | cons q qs => simp [joinSep] at ih ⊢; simp [ih, h]
    · simp only [if_neg h, hrest]
      cases pieces with
      | nil => simp [joinSep] at ih ⊢; simp [ih]
      | cons q qs => simp [joinSep] at ih ⊢; simp [ih]

theorem pyStrip_of_allSpace {s : Str} (h : allSpace s) : pyStrip s = [] := by
  unfold pyStrip
  have h1 : s.dropWhile pyIsSpace = [] :=
    List.dropWhile_eq_nil_iff.mpr (fun x hx => h x hx)
  simp [h1]

theorem allSpace_of_pyStrip {s : Str} (h : pyStrip s = []) : allSpace s := by
  unfold pyStrip at h
  have h2 : (s.dropWhile pyIsSpace).reverse.dropWhile pyIsSpace = [] := by
    have := congrArg List.reverse h
    simpa using this
  have h3 : ∀ x ∈ (s.dropWhile pyIsSpace).reverse, pyIsSpace x :=
    List.dropWhile_eq_nil_iff.mp h2
  have h4 : ∀ x ∈ s.dropWhile pyIsSpace, pyIsSpace x := by
    intro x hx
    exact h3 x (List.mem_reverse.mpr hx)
  have h5 : s.dropWhile pyIsSpace = [] := by
    cases hdw : s.dropWhile pyIsSpace with
    | nil => rfl
    | cons a as =>
      exfalso
      have ha : ¬ pyIsSpace a := by
        have := List.head?_dropWhile_not pyIsSpace s
        rw [hdw] at this
        simpa using this
      exact ha (h4 a (by rw [hdw]; exact List.mem_cons_self a as))
  intro c hc
  exact List.dropWhile_eq_nil_iff.mp h5 c hc

theorem pyStrip_eq_nil_iff (s : Str) : pyStrip s = [] ↔ allSpace s :=
  ⟨allSpace_of_pyStrip, pyStrip_of_allSpace⟩

/-! ## Association-list model of Python `dict`

Keys are unique in every dict the servers build; the operations below agree
with Python `dict` lookup, `d[k] = v` assignment and `del d[k]` on such
maps. -/

/-- Model of Python dict lookup `d.get(k)`. -/
def dictLookup {κ β : Type} [DecidableEq κ] : List (κ × β) → κ → Option β
  | [], _ => none
  | p :: rest, k => if p.1 = k then some p.2 else dictLookup rest k

/-- Model of Python dict assignment `d[k] = v`: replaces the binding if the
key is present, otherwise appends it (insertion order preserved). -/
def dictInsert {κ β : Type} [DecidableEq κ] : List (κ × β) → κ → β → List (κ × β)
  | [], k, v => [(k, v)]
  | p :: rest, k, v => if p.1 = k then (k, v) :: rest else p :: dictInsert rest k v

/-- Model of Python `del d[k]`. -/
def dictErase {κ β : Type} [DecidableEq κ] (m : List (κ × β)) (k : κ) : List (κ × β) :=
  m.filter (fun p => p.1 ≠ k)

theorem dictLookup_insert_self {κ β : Type} [DecidableEq κ]
    (m : List (κ × β)) (k : κ) (v : β) : dictLookup (dictInsert m k v) k = some v := by
  induction m with
  | nil => simp [dictInsert, dictLookup]
  | cons p rest ih =>
    unfold dictInsert
    by_cases h : p.1 = k
    · simp [h, dictLookup]
    · simp [h, dictLookup, ih]

theorem dictLookup_insert_ne {κ β : Type} [DecidableEq κ]
    (m : List (κ × β)) (k k' : κ) (v : β) (hne : k' ≠ k) :
    dictLookup (dictInsert m k v) k' = dictLookup m k' := by
  induction m with
  | nil => simp [dictInsert, dictLookup, hne.symm]
  | cons p rest ih =>
    unfold dictInsert
    by_cases h : p.1 = k
    · simp [dictLookup, h, hne.symm]
    · simp [dictLookup, h, ih]

theorem dictLookup_erase_self {κ β : Type} [DecidableEq κ]
    (m : List (κ × β)) (k : κ) : dictLookup (dictErase m k) k = none := by
  induction m with
  | nil => simp [dictErase, dictLookup]
  | cons p rest ih =>
    unfold dictErase at ih ⊢
    rw [List.filter_cons]
    by_cases h : p.1 = k
    · simpa [h] using ih
    · simpa [h, dictLookup] using ih

theorem dictLookup_erase_ne {κ β : Type} [DecidableEq κ]
    (m : List (κ × β)) (k k' : κ) (hne : k' ≠ k) :
    dictLookup (dictErase m k) k' = dictLookup m k' := by
  induction m with
  | nil => simp [dictErase, dictLookup]
  | cons p rest ih =>
    unfold dictErase at ih ⊢
    rw [List.filter_cons]
    by_cases h : p.1 = k
    · have hp : p.1 ≠ k' := by rw [h]; exact hne.symm
      simp only [dictLookup, if_neg hp]
      simpa [h] using ih
    · by_cases h2 : p.1 = k'
      · simp [h, dictLookup, h2, hne]
      · simpa [h, dictLookup, h2] using ih

/-! ## Model of Python `uuid.UUID(str)` validation

`submit_answer` in `server2.py` validates `quiz_id` and `question_id` with
`uuid.UUID(...)` before any lookup. CPython's constructor removes every
occurrence of the substrings `urn:` and `uuid:`, strips braces from both
ends, removes all hyphens, requires exactly 32 remaining characters, and
parses them with `int(hex, 16)`. -/

/-- Removes every occurrence of a (non-empty) pattern, scanning left to
right without rescanning, as Python `str.replace(pat, "")` does. The fuel
argument bounds the recursion by the string length. -/
def removeSubFuel (pat : Str) : Nat → Str → Str
  | 0, s => s
  | _ + 1, [] => []
  | fuel + 1, c :: rest =>
    if pat ≠ [] ∧ pat.isPrefixOf (c :: rest) then
      removeSubFuel pat fuel ((c :: rest).drop pat.length)
    else c :: removeSubFuel pat fuel rest

/-- Model of Python `s.replace(pat, "")`. -/
def removeSub (pat s : Str) : Str := removeSubFuel pat s.length s

/-- Model of Python `s.strip(chars)`: drops characters in `cs` from both
ends. -/
def stripChars (cs : List Char) (s : Str) : Str :=
  ((s.dropWhile (· ∈ cs)).reverse.dropWhile (· ∈ cs)).reverse

/-- Hexadecimal digit as accepted by Python `int(_, 16)`. -/
def isHexDigitChar (c : Char) : Bool :=
  c.isDigit || ('a' ≤ c && c ≤ 'f') || ('A' ≤ c && c ≤ 'F')

/-- Continuation of a hex-digit run: after a digit, either another digit or
a single underscore followed by a digit may appear. -/
def hexTail : Str → Bool
  | [] => true
  | '_' :: c :: rest => isHexDigitChar c && hexTail rest
  | '_' :: [] => false
  | c :: rest => isHexDigitChar c && hexTail rest

/-- A non-empty run of hex digits with single underscores only between
digits, as Python `int(_, 16)` accepts. -/
def hexCore : Str → Bool
  | [] => false
  | c :: rest => isHexDigitChar c && hexTail rest

/-- Model of Python `int(s, 16)` succeeding: optional surrounding
whitespace, an optional sign, an optional `0x`/`0X` prefix (after which a
single underscore may directly follow), then hex digits with single
underscores between digits. -/
def pyInt16Ok (s : Str) : Bool :=
  let t := pyStrip s
  let t := match t with
    | '+' :: r => r
    | '-' :: r => r
    | r => r
  match t with
  | '0' :: x :: r =>
    if x = 'x' ∨ x = 'X' then
      match r with
      | '_' :: r2 => hexCore r2
      | _ => hexCore r
    else hexCore t
  | _ => hexCore t

/-- Named constant for the `urn:` marker removed by `uuid.UUID`. -/
def urnMarker : Str := ['u', 'r', 'n', ':']

/-- Named constant for the `uuid:` marker removed by `uuid.UUID`. -/
def uuidMarker : Str := ['u', 'u', 'i', 'd', ':']

/-- Model of `uuid.UUID(s)` succeeding (the string is a syntactically valid
UUID for CPython). -/
def pyUUIDValid (s : Str) : Bool :=
  let h := removeSub uuidMarker (removeSub urnMarker s)
  let h := stripChars ['\x7b', '\x7d'] h
  let h := h.filter (· ≠ '-')
  h.length = 32 && pyInt16Ok h

namespace Server2

/-- Model of the pydantic `Question` record of `server2.py` (`id`,
`question`, optional `ideal_answer`, always `None` in practice). -/
structure Question where
  id : Str
  question : Str
  ideal_answer : Option Str
deriving DecidableEq

/-- Model of a quiz record as stored in `session['active_quizzes']`:
`{"questions": ..., "answers": {}, "current_question": 0}`. -/
structure Quiz where
  questions : List Question
  answers : List (Str × Str)
  current_question : Nat
deriving DecidableEq

/-- Model of a session record created by `SessionManager.create_session`:
creation time, last-access time, conversational memory (list of turns,
empty when fresh), whether a chain is bound, and the active quizzes. -/
structure SessionData where
  created_at : Nat
  last_accessed : Nat
  memory : List (Str × Str)
  chain : Bool
  active_quizzes : List (Str × Quiz)
deriving DecidableEq

/-- Model of `SessionManager`: the session map plus the timeout. Wall-clock
time is embedded as a `Nat` supplied to each operation. -/
structure SessionManager where
  sessions : List (Str × SessionData)
  session_timeout : Nat
deriving DecidableEq

/-- Model of `SessionManager.create_session`: allocates a fresh identifier
(supplied by the caller, standing for `uuid.uuid4()`) mapped to a new
session with empty memory and no quizzes. -/
def SessionManager.create_session (m : SessionManager) (now : Nat) (fresh : Str) :
    SessionManager × Str :=
  let s : SessionData :=
    { created_at := now, last_accessed := now, memory := [], chain := false,
      active_quizzes := [] }
  ({ m with sessions := dictInsert m.sessions fresh s }, fresh)

/-- Model of `SessionManager.get_session`: returns the stored session if
present and unexpired, refreshing its last-access time; deletes it and
returns `none` if the elapsed time since last access exceeds the timeout. -/
def SessionManager.get_session (m : SessionManager) (now : Nat) (session_id : Str) :
    SessionManager × Option SessionData :=
  match dictLookup m.sessions session_id with
  | none => (m, none)
  | some s =>
    if m.session_timeout < now - s.last_accessed then
      ({ m with sessions := dictErase m.sessions session_id }, none)
    else
      let s' := { s with last_accessed := now }
      ({ m with sessions := dictInsert m.sessions session_id s' }, some s')

/-- Model of the FastAPI dependency `get_session` of `server2.py`: takes
the optional `X-Session-ID` header value; creates a session when the header
is absent or empty, and when lookup fails (unknown or expired identifier)
creates a brand-new session and returns its state. `fresh1`/`fresh2` stand
for the identifiers `uuid.uuid4()` would produce at the two call sites. -/
def get_session_dep (m : SessionManager) (now : Nat) (provided : Option Str)
    (fresh1 fresh2 : Str) : SessionManager × Str × Option SessionData :=
  let (m1, sid1) :=
    match provided with
    | none => m.create_session now fresh1
    | some sid => if sid = [] then m.create_session now fresh1 else (m, sid)
  let (m2, sopt) := m1.get_session now sid1
  match sopt with
  | some s => (m2, sid1, some s)
  | none =>
    let (m3, sid2) := m2.create_session now fresh2
    let (m4, sopt2) := m3.get_session now sid2
    (m4, sid2, sopt2)

/-- Builds the question list of `generate_questions`: one `Question` per
usable line, with a fresh identifier (`uuid.uuid4()`, supplied as
`fresh_ids i` for the i-th loop iteration) and the line's text. -/
def buildQuestions (fresh_ids : Nat → Str) : Nat → List Str → List Question
  | _, [] => []
  | i, line :: rest =>
    { id := fresh_ids i, question := line, ideal_answer := none } ::
      buildQuestions fresh_ids (i + 1) rest

/-- The usable question lines of a generation response: the response is
split on newlines, each line stripped, and blank lines dropped — model of
`[line.strip() for line in answer_text.split('\n') if line.strip()]`. -/
def usableLines (answer_text : Str) : List Str :=
  ((pySplitChar '\n' answer_text).map pyStrip).filter (· ≠ [])

/-- Model of `generate_questions` of `server2.py`, with the generation
response (`response['answer']`, an opaque model call) passed in as
`answer_text`: splits it into usable lines, wraps each in a `Question` with
a fresh identifier, and truncates to `num_questions`. -/
def generate_questions (fresh_ids : Nat → Str) (answer_text : Str)
    (num_questions : Nat) : List Question :=
  (buildQuestions fresh_ids 0 (usableLines answer_text)).take num_questions

/-- Error message raised by `create_chain` when the global vectorstore is
not initialized. -/
def msgNoVectorstore : String := "Vectorstore not initialized"

/-- Model of the `/quiz/start` handler of `server2.py`. `vstore_ready`
models whether `global_vectorstore` is initialized (`create_chain` raises
otherwise), `quiz_id` stands for the `uuid.uuid4()` the handler draws, and
`answer_text` is the opaque generation response. On success the new quiz is
stored in the session's `active_quizzes` with an empty answer map and
cursor 0, and returned with its questions. -/
def start_quiz (vstore_ready : Bool) (sd : SessionData) (quiz_id : Str)
    (fresh_ids : Nat → Str) (answer_text : Str) :
    Except String (SessionData × Str × List Question) :=
  if ¬ sd.chain ∧ ¬ vstore_ready then .error msgNoVectorstore
  else
    let sd1 := if sd.chain then sd else { sd with chain := true }
    let questions := generate_questions fresh_ids answer_text 5
    let newQuiz : Quiz :=
      { questions := questions, answers := [], current_question := 0 }
    let sd2 :=
      { sd1 with active_quizzes := dictInsert sd1.active_quizzes quiz_id newQuiz }
    .ok (sd2, quiz_id, questions)

/-- Error cases of the quiz-level part of `submit_answer`. -/
inductive SubmitErr where
  | questionNotFound : SubmitErr
deriving DecidableEq

/-- Model of the quiz-level body of `submit_answer` (`server2.py` lines
264–272): validates that `question_id` belongs to the quiz's question list
(else a 404 `HTTPException`), records the answer (overwriting any prior
answer for that question), advances the cursor by one, and reports whether
the quiz is complete (`current_question >= len(questions)`). -/
def submit_answer_core (quiz : Quiz) (question_id user_answer : Str) :
    Except SubmitErr (Quiz × Bool) :=
  if ∃ q ∈ quiz.questions, q.id = question_id then
    let quiz' := { quiz with
      answers := dictInsert quiz.answers question_id user_answer,
      current_question := quiz.current_question + 1 }
    .ok (quiz', decide (quiz'.questions.length ≤ quiz'.current_question))
  else .error .questionNotFound

/-- The outcome of the `/quiz/{quiz_id}/answer/{question_id}` route. -/
inductive SubmitResp where
  | success (quiz_complete : Bool) (stored_answer : Str) : SubmitResp
  | badRequest (detail : String) : SubmitResp
  | notFound (detail : String) : SubmitResp
deriving DecidableEq

/-- Detail string of the 400 response for malformed identifiers. -/
def msgBadId : String := "Invalid quiz or question ID format"

/-- Detail string of the 404 response for an unknown quiz. -/
def msgQuizNotFound : String := "Quiz not found"

/-- Detail string of the 404 response for an unknown question. -/
def msgQuestionNotFound : String := "Question not found in quiz"

/-- Model of the `/quiz/{quiz_id}/answer/{question_id}` handler of
`server2.py`: first validates that both identifiers parse as UUIDs (else
400, before any lookup), then looks up the quiz in the session (else 404),
then delegates to the quiz-level body. An `HTTPException` leaves the
session state unchanged. -/
def submit_answer_route (sd : SessionData) (quiz_id question_id user_answer : Str) :
    SessionData × SubmitResp :=
  if ¬ (pyUUIDValid quiz_id ∧ pyUUIDValid question_id) then
    (sd, .badRequest msgBadId)
  else
    match dictLookup sd.active_quizzes quiz_id with
    | none => (sd, .notFound msgQuizNotFound)
    | some quiz =>
      match submit_answer_core quiz question_id user_answer with
      | .error _ => (sd, .notFound msgQuestionNotFound)
      | .ok (quiz', fl) =>
        ({ sd with active_quizzes := dictInsert sd.active_quizzes quiz_id quiz' },
          .success fl user_answer)

/-- Applies a sequence of quiz-level `submit_answer` calls; a call that
raises (unknown question) leaves the quiz unchanged, as the handler's
`HTTPException` does. -/
def runSubmits (quiz : Quiz) (calls : List (Str × Str)) : Quiz :=
  calls.foldl (fun acc c =>
    match submit_answer_core acc c.1 c.2 with
    | .ok (q', _) => q'
    | .error _ => acc) quiz

end Server2

/-! ## Model of the corpus splitter

Both servers split the combined PDF text with langchain's
`CharacterTextSplitter(separator="\n", chunk_size, chunk_overlap,
length_function=len)`. Its `split_text` splits the text at the separator,
drops empty pieces, and greedily merges consecutive pieces into chunks of
at most `chunk_size` characters (joined by the separator), carrying
`chunk_overlap` characters of trailing context between chunks; every chunk
is stripped and dropped when empty. -/

/-- Model of langchain `_split_text_with_regex` for a one-character
separator with `keep_separator=False`: split on the separator, drop empty
pieces. -/
def splitTextPieces (sep : Char) (text : Str) : List Str :=
  (pySplitChar sep text).filter (· ≠ [])

/-- Model of Python `sep.join(pieces)`. -/
def joinPieces (sep : Str) : List Str → Str
  | [] => []
  | [p] => p
  | p :: q :: rest => p ++ sep ++ joinPieces sep (q :: rest)

/-- Model of langchain `_join_docs`: joins with the separator, strips
whitespace, and returns `none` for an empty result. -/
def joinDocs (sep : Str) (docsList : List Str) : Option Str :=
  let text := pyStrip (joinPieces sep docsList)
  if text = [] then none else some text

/-- Model of the overlap-retention `while` loop inside langchain
`_merge_splits`: pops pieces from the front of the current chunk while the
running total exceeds the overlap, or while the incoming piece would
overflow the chunk size. -/
def shrinkCur (chunk_size chunk_overlap sepLen incomingLen : Nat) :
    List Str → Nat → List Str × Nat
  | [], total => ([], total)
  | d :: rest, total =>
    if chunk_overlap < total ∨ (chunk_size < total + incomingLen + sepLen ∧ 0 < total) then
      shrinkCur chunk_size chunk_overlap sepLen incomingLen rest
        (total - (d.length + if rest ≠ [] then sepLen else 0))
    else (d :: rest, total)

/-- Accumulator of langchain `_merge_splits`: emitted chunks, the pieces of
the chunk under construction, and its running character total. -/
structure MergeSt where
  docs : List Str
  cur : List Str
  total : Nat

/-- One iteration of the `for d in splits` loop of langchain
`_merge_splits`: when the incoming piece would overflow the chunk size, the
current chunk is emitted (unless it strips to nothing) and shrunk for
overlap; the piece is then appended to the current chunk. -/
def mergeStep (chunk_size chunk_overlap sepLen : Nat) (sep : Str)
    (st : MergeSt) (d : Str) : MergeSt :=
  let len_d := d.length
  if chunk_size < st.total + len_d + (if st.cur ≠ [] then sepLen else 0) then
    match st.cur with
    | [] => { docs := st.docs, cur := [d], total := st.total + len_d }
    | c0 :: crest =>
      let docs' :=
        match joinDocs sep (c0 :: crest) with
        | some doc => st.docs ++ [doc]
        | none => st.docs
      let shrunk := shrinkCur chunk_size chunk_overlap sepLen len_d (c0 :: crest) st.total
      { docs := docs', cur := shrunk.1 ++ [d],
        total := shrunk.2 + len_d + (if shrunk.1 ≠ [] then sepLen else 0) }
  else
    { docs := st.docs, cur := st.cur ++ [d],
      total := st.total + len_d + (if st.cur ≠ [] then sepLen else 0) }

/-- Model of langchain `_merge_splits`. -/
def mergeSplits (chunk_size chunk_overlap sepLen : Nat) (sep : Str)
    (splits : List Str) : List Str :=
  let st := splits.foldl (mergeStep chunk_size chunk_overlap sepLen sep)
    { docs := [], cur := [], total := 0 }
  match joinDocs sep st.cur with
  | some doc => st.docs ++ [doc]
  | none => st.docs

/-- Model of `get_text_chunks` (identical in both servers):
`CharacterTextSplitter(separator="\n", ...).split_text(text)`. -/
def get_text_chunks (chunk_size chunk_overlap : Nat) (text : Str) : List Str :=
  mergeSplits chunk_size chunk_overlap 1 ['\n'] (splitTextPieces '\n' text)

/-- The combined corpus text: both servers concatenate the extracted text
of each PDF followed by a space (`combined_text += get_pdf_text(path) + " "`).
PDF extraction is external, so the extracted texts are parameters. -/
def combineTexts (texts : List Str) : Str :=
  texts.foldl (fun acc t => acc ++ t ++ [' ']) []

/-- The document index is modelled by the list of chunks it stores
(`FAISS.from_texts`): the embedding of each chunk is an opaque external
call, so the observable state of the index is its chunk list. -/
abbrev VS := List Str

/-- Model of `FAISS.from_texts(texts, embedding)`: stores the chunk list. -/
def FAISS_from_texts (texts : List Str) : VS := texts

namespace Server2

/-- Model of `initialize_vectorstore` of `server2.py`: builds the global
vectorstore from the combined PDF text unless it is already initialized,
in which case it returns immediately, leaving the store unchanged. -/
def initialize_vectorstore (chunk_size chunk_overlap : Nat) (texts : List Str)
    (st : Option VS) : Option VS :=
  match st with
  | some vs => some vs
  | none =>
    some (FAISS_from_texts (get_text_chunks chunk_size chunk_overlap (combineTexts texts)))

end Server2

namespace Server3

/-- Message returned when the vectorstore already exists. -/
def msgAlreadyInit : String := "[SYSTEM MESSAGE] Vectorstore is already initialized."

/-- Message returned when no text could be extracted. -/
def msgNoText : String := "No text could be extracted from the PDFs."

/-- Message returned on a successful build. -/
def msgCreated : String := "[SYSTEM MESSAGE] Vectorstore was created successfully."

/-- Model of `initialize_global_vectorstore` of `server3.py`: under the
build lock, returns immediately (state unchanged) when the vectorstore is
already initialized; otherwise combines the extracted PDF texts, fails
without publishing an index when the combined text strips to nothing, and
otherwise splits the text into chunks and publishes the index. The result
is the new global state plus the `(success, message)` pair the function
returns. -/
def initialize_global_vectorstore (chunk_size chunk_overlap : Nat)
    (texts : List Str) (st : Option VS) : Option VS × Bool × String :=
  match st with
  | some vs => (some vs, true, msgAlreadyInit)
  | none =>
    let combined_text := combineTexts texts
    if pyStrip combined_text = [] then (none, false, msgNoText)
    else
      let text_chunks := get_text_chunks chunk_size chunk_overlap combined_text
      (some (FAISS_from_texts text_chunks), true, msgCreated)

/-! ### Fuzzy correction (`server3.py`)

The scorer (`fuzz.ratio` composed with thefuzz's default processor) is an
external library function and is passed in as an opaque `scoreFn` returning
a 0–100 similarity. -/

/-- An entry of the fuzzy match report:
`{'original': word, 'matches': matches}`. -/
structure FuzzyEntry where
  original : Str
  matches' : List (Str × Nat)
deriving DecidableEq

/-- Stable insertion into a list sorted by descending score (a new element
goes before the first element whose score is not larger). -/
def insertPairDesc (p : Str × Nat) : List (Str × Nat) → List (Str × Nat)
  | [] => [p]
  | q :: rest => if q.2 ≤ p.2 then p :: q :: rest else q :: insertPairDesc p rest

/-- Stable sort by descending score, as Python
`sorted(..., key=lambda i: i[1], reverse=True)`. -/
def sortPairsDesc (l : List (Str × Nat)) : List (Str × Nat) :=
  l.foldr insertPairDesc []

/-- Model of `process.extractBests(query, choices, scorer, score_cutoff,
limit)` from thefuzz: scores every choice, keeps those scoring at least
`score_cutoff`, sorts them by descending score (stably), and returns the
first `lim` of them. -/
def extractBests (scoreFn : Str → Str → Nat) (query : Str) (choices : List Str)
    (score_cutoff lim : Nat) : List (Str × Nat) :=
  (sortPairsDesc ((choices.map (fun c => (c, scoreFn query c))).filter
    (fun p => score_cutoff ≤ p.2))).take lim

/-- Model of `get_fuzzy_matches` of `server3.py`: matches above the default
threshold 80, with thefuzz's default limit of 5. -/
def get_fuzzy_matches (scoreFn : Str → Str → Nat) (word : Str)
    (word_list : List Str) : List (Str × Nat) :=
  extractBests scoreFn word word_list 80 5

/-- Model of `process_with_fuzzy_matching` of `server3.py`: lowercases and
whitespace-splits the question; for each token records an entry when the
token has matches and the best match differs from the token; returns the
original question unchanged together with the report. -/
def process_with_fuzzy_matching (scoreFn : Str → Str → Nat) (question : Str)
    (fuzzy_corpus : List Str) : Str × List FuzzyEntry :=
  let words := pySplitWhitespace (pyLower question)
  let fuzzy_matches := words.filterMap (fun word =>
    match get_fuzzy_matches scoreFn word fuzzy_corpus with
    | [] => none
    | m :: rest =>
      if m.1 = word then none
      else some ⟨word, m :: rest⟩)
  (question, fuzzy_matches)

/-- Python-level failures of the `/ask` pipeline steps. -/
inductive PyErr where
  | keyError : PyErr
  | chainError : PyErr
deriving DecidableEq

/-- Model of a user state of `server3.py` (`user_sessions[user_id]`). The
two chains are opaque fallible functions: the conversation chain maps a
question to an answer, the semantic chain maps `(question, fuzzy_matches)`
to a corrected question. `semantic_chain = none` models the key being
absent from the dict (it is set only when a chain is built). -/
structure UserState3 where
  memory : List (Str × Str)
  chain : Option (Str → Except PyErr Str)
  semantic_chain : Option (Str → Str → Except PyErr Str)
  history : List (Str × Str)
  fuzzy_corpus : List Str

/-- The sentinel prompt text used when no fuzzy matches were found. -/
def noSimilarTerms : Str := "No similar terms found".data

/-- Model of `str(fuzzy_matches) if fuzzy_matches else "No similar terms
found"`. The exact Python repr text only flows into the semantic prompt,
so it is modelled by concatenating the original tokens of the report. -/
def fuzzyMatchesStr (fm : List FuzzyEntry) : Str :=
  if fm = [] then noSimilarTerms
  else fm.foldl (fun acc e => acc ++ e.original) []

/-- Model of `handle_userinput` of `server3.py`. `fuzzyStep` is the call to
`process_with_fuzzy_matching` (fallible, because the fuzzy library call
inside it is external and may raise). Reading a missing `semantic_chain`
key raises `KeyError`; with chains present, the `try` block runs fuzzy
matching, semantic rewriting and the conversation chain, appending the turn
to the history; on any exception the `except` block falls back to the
conversation chain on the raw question, leaving the history untouched; a
failure of the fallback itself propagates. `none` as answer models the
`return None` taken when no conversation chain exists. -/
def handle_userinput
    (fuzzyStep : Str → List Str → Except PyErr (Str × List FuzzyEntry))
    (st : UserState3) (user_question : Str) :
    Except PyErr (UserState3 × Option Str) :=
  match st.semantic_chain with
  | none => .error .keyError
  | some sc =>
    match st.chain with
    | none => .ok (st, none)
    | some cc =>
      let tryResult : Except PyErr (UserState3 × Str) :=
        match fuzzyStep user_question st.fuzzy_corpus with
        | .error e => .error e
        | .ok fmPair =>
          match sc user_question (fuzzyMatchesStr fmPair.2) with
          | .error e => .error e
          | .ok processed_question =>
            match cc processed_question with
            | .error e => .error e
            | .ok answer =>
              .ok ({ st with history := st.history ++ [(user_question, answer)] },
                answer)
      match tryResult with
      | .ok pa => .ok (pa.1, some pa.2)
      | .error _ =>
        match cc user_question with
        | .ok answer => .ok (st, some answer)
        | .error e => .error e

end Server3

/-! ## Helper lemmas for the quiz engine -/

namespace Server2

/-- The quiz as updated by a successful `submit_answer`: the answer is
stored under the question id and the cursor advances by one. -/
def recordAnswer (quiz : Quiz) (question_id user_answer : Str) : Quiz :=
  { quiz with
    answers := dictInsert quiz.answers question_id user_answer,
    current_question := quiz.current_question + 1 }

theorem submit_answer_core_of_mem {quiz : Quiz} {question_id user_answer : Str}
    (h : ∃ qu ∈ quiz.questions, qu.id = question_id) :
    submit_answer_core quiz question_id user_answer =
      .ok (recordAnswer quiz question_id user_answer,
        decide (quiz.questions.length ≤ quiz.current_question + 1)) := by
  unfold submit_answer_core
  rw [if_pos h]
  rfl

theorem submit_answer_core_of_not_mem {quiz : Quiz} {question_id user_answer : Str}
    (h : ¬ ∃ qu ∈ quiz.questions, qu.id = question_id) :
    submit_answer_core quiz question_id user_answer = .error .questionNotFound := by
  unfold submit_answer_core
  rw [if_neg h]

theorem submit_step_le (quiz : Quiz) (c : Str × Str) :
    quiz.current_question ≤
      (match submit_answer_core quiz c.1 c.2 with
        | .ok (q', _) => q'
        | .error _ => quiz).current_question := by
  by_cases h : ∃ qu ∈ quiz.questions, qu.id = c.1
  · rw [submit_answer_core_of_mem h]
    show quiz.current_question ≤ (recordAnswer quiz c.1 c.2).current_question
    exact Nat.le_succ _
  · rw [submit_answer_core_of_not_mem h]

theorem submit_step_questions (quiz : Quiz) (c : Str × Str) :
    (match submit_answer_core quiz c.1 c.2 with
      | .ok (q', _) => q'
      | .error _ => quiz).questions = quiz.questions := by
  by_cases h : ∃ qu ∈ quiz.questions, qu.id = c.1
  · rw [submit_answer_core_of_mem h]
    show (recordAnswer quiz c.1 c.2).questions = quiz.questions
    rfl
  · rw [submit_answer_core_of_not_mem h]

theorem runSubmits_current_le (calls : List (Str × Str)) :
    ∀ quiz : Quiz,
      quiz.current_question ≤ (runSubmits quiz calls).current_question := by
  induction calls with
  | nil => intro quiz; exact Nat.le_refl _
  | cons c rest ih =>
    intro quiz
    have hstep := submit_step_le quiz c
    calc quiz.current_question
        ≤ (match submit_answer_core quiz c.1 c.2 with
            | .ok (q', _) => q'
            | .error _ => quiz).current_question := hstep
      _ ≤ (runSubmits
            (match submit_answer_core quiz c.1 c.2 with
              | .ok (q', _) => q'
              | .error _ => quiz) rest).current_question := ih _
      _ = (runSubmits quiz (c :: rest)).current_question := rfl

theorem runSubmits_questions_eq (calls : List (Str × Str)) :
    ∀ quiz : Quiz, (runSubmits quiz calls).questions = quiz.questions := by
  induction calls with
  | nil => intro quiz; rfl
  | cons c rest ih =>
    intro quiz
    have : (runSubmits quiz (c :: rest)).questions =
        (runSubmits
          (match submit_answer_core quiz c.1 c.2 with
            | .ok (q', _) => q'
            | .error _ => quiz) rest).questions := rfl
    rw [this, ih, submit_step_questions]

end Server2

/-- C1 (amended): across any sequence of `submit_answer` calls the cursor
is non-decreasing and the question list is unchanged, and a call reports
`quiz_complete` exactly when the new cursor is at least the question count;
however the cursor is not bounded by the question count (each successful
call increments it, also on resubmission). -/
theorem quiz_cursor_monotone_complete_iff (quiz : Server2.Quiz)
    (calls : List (Str × Str)) (qid ans : Str) (q' : Server2.Quiz) (fl : Bool)
    (h : Server2.submit_answer_core quiz qid ans = .ok (q', fl)) :
    quiz.current_question ≤ (Server2.runSubmits quiz calls).current_question ∧
    (Server2.runSubmits quiz calls).questions = quiz.questions ∧
    (fl = true ↔ q'.questions.length ≤ q'.current_question) := by
  refine ⟨Server2.runSubmits_current_le calls quiz,
    Server2.runSubmits_questions_eq calls quiz, ?_⟩
  by_cases hmem : ∃ qu ∈ quiz.questions, qu.id = qid
  · rw [Server2.submit_answer_core_of_mem hmem] at h
    have h1 : q' = Server2.recordAnswer quiz qid ans := by
      cases h; rfl
    have h2 : fl = decide (quiz.questions.length ≤ quiz.current_question + 1) := by
      cases h; rfl
    subst h1; subst h2
    simp [Server2.recordAnswer]
  · rw [Server2.submit_answer_core_of_not_mem hmem] at h
    cases h

/-- Witness for C1's theorem at a concrete quiz and call. -/
theorem quiz_cursor_monotone_complete_iff_witness :
    Server2.submit_answer_core ⟨[⟨['a'], ['Q'], none⟩], [], 0⟩ ['a'] ['x'] =
      .ok (⟨[⟨['a'], ['Q'], none⟩], [(['a'], ['x'])], 1⟩, true) ∧
    ((⟨[⟨['a'], ['Q'], none⟩], [], 0⟩ : Server2.Quiz).current_question ≤
      (Server2.runSubmits ⟨[⟨['a'], ['Q'], none⟩], [], 0⟩
        [(['a'], ['x']), (['a'], ['y'])]).current_question ∧
    (Server2.runSubmits ⟨[⟨['a'], ['Q'], none⟩], [], 0⟩
        [(['a'], ['x']), (['a'], ['y'])]).questions =
      (⟨[⟨['a'], ['Q'], none⟩], [], 0⟩ : Server2.Quiz).questions ∧
    (true = true ↔
      (⟨[⟨['a'], ['Q'], none⟩], [(['a'], ['x'])], 1⟩ : Server2.Quiz).questions.length ≤
      (⟨[⟨['a'], ['Q'], none⟩], [(['a'], ['x'])], 1⟩ : Server2.Quiz).current_question)) :=
  ⟨rfl, quiz_cursor_monotone_complete_iff ⟨[⟨['a'], ['Q'], none⟩], [], 0⟩
    [(['a'], ['x']), (['a'], ['y'])] ['a'] ['x']
    ⟨[⟨['a'], ['Q'], none⟩], [(['a'], ['x'])], 1⟩ true rfl⟩

/-- C1 counterexample: on a one-question quiz, submitting an answer to the
same question twice drives the cursor to 2, strictly above the question
count — the claim's "the cursor never exceeds the quiz's question count"
is false as stated. -/
theorem quiz_cursor_can_exceed_count :
    (⟨[⟨['a'], ['Q'], none⟩], [], 0⟩ : Server2.Quiz).questions.length <
      (Server2.runSubmits ⟨[⟨['a'], ['Q'], none⟩], [], 0⟩
        [(['a'], ['x']), (['a'], ['y'])]).current_question := by decide

/-- Concrete two-question quiz used by the C8 witness (the second question
already has an answer recorded). -/
def c8Quiz : Server2.Quiz :=
  ⟨[⟨ "aaaaaaaaaaaaaaaaaaaaaaaaaaaaaaaa".data, ['Q', '1'], none⟩,
    ⟨ "beefbeefbeefbeefbeefbeefbeefbeef".data, ['Q', '2'], none⟩],
   [( "beefbeefbeefbeefbeefbeefbeefbeef".data, ['o', 'l', 'd'])], 1⟩

/-- Concrete session used by the C8 witness. -/
def c8Sd : Server2.SessionData :=
  ⟨0, 0, [], false, [( "facefacefacefacefacefacefaceface".data, c8Quiz)]⟩

/-- C8: a `submit_answer` call whose `question_id` is not among the quiz's
questions returns the 404 `NotFoundError` and changes nothing; a call whose
`question_id` does belong records the answer under that question id,
overwriting any prior answer for it and leaving every other question's
answer unchanged. -/
theorem submit_answer_validates_and_overwrites (sd : Server2.SessionData)
    (quiz_id question_id ans k : Str) (quiz : Server2.Quiz)
    (hu1 : pyUUIDValid quiz_id = true) (hu2 : pyUUIDValid question_id = true)
    (hq : dictLookup sd.active_quizzes quiz_id = some quiz) :
    ((¬ ∃ qu ∈ quiz.questions, qu.id = question_id) →
      Server2.submit_answer_route sd quiz_id question_id ans =
        (sd, .notFound Server2.msgQuestionNotFound)) ∧
    ((∃ qu ∈ quiz.questions, qu.id = question_id) →
      Server2.submit_answer_route sd quiz_id question_id ans =
        ({ sd with active_quizzes := dictInsert sd.active_quizzes quiz_id (Server2.recordAnswer quiz question_id ans) },
          .success (decide (quiz.questions.length ≤ quiz.current_question + 1)) ans) ∧
      dictLookup (Server2.recordAnswer quiz question_id ans).answers question_id =
        some ans ∧
      (k ≠ question_id →
        dictLookup (Server2.recordAnswer quiz question_id ans).answers k =
          dictLookup quiz.answers k)) := by
  unfold Server2.submit_answer_route
  rw [if_neg (by simp [hu1, hu2])]
  rw [hq]
  dsimp only
  constructor
  · intro hmem
    rw [Server2.submit_answer_core_of_not_mem hmem]
  · intro hmem
    rw [Server2.submit_answer_core_of_mem hmem]
    refine ⟨rfl, ?_, ?_⟩
    · exact dictLookup_insert_self quiz.answers question_id ans
    · intro hk
      exact dictLookup_insert_ne quiz.answers question_id k ans hk

/-- Witness for C8's theorem: on the concrete session, resubmitting an
answer for the second question overwrites the prior answer and leaves the
first question's (absent) answer untouched. -/
theorem submit_answer_validates_and_overwrites_witness :
    pyUUIDValid ("facefacefacefacefacefacefaceface".data) = true ∧
    pyUUIDValid ("beefbeefbeefbeefbeefbeefbeefbeef".data) = true ∧
    dictLookup c8Sd.active_quizzes ("facefacefacefacefacefacefaceface".data) =
      some c8Quiz ∧
    (∃ qu ∈ c8Quiz.questions, qu.id = ("beefbeefbeefbeefbeefbeefbeefbeef".data)) ∧
    dictLookup (Server2.recordAnswer c8Quiz
        ("beefbeefbeefbeefbeefbeefbeefbeef".data) ['n', 'e', 'w']).answers
      ("beefbeefbeefbeefbeefbeefbeefbeef".data) = some ['n', 'e', 'w'] ∧
    dictLookup (Server2.recordAnswer c8Quiz
        ("beefbeefbeefbeefbeefbeefbeefbeef".data) ['n', 'e', 'w']).answers
      ("aaaaaaaaaaaaaaaaaaaaaaaaaaaaaaaa".data) =
      dictLookup c8Quiz.answers ("aaaaaaaaaaaaaaaaaaaaaaaaaaaaaaaa".data) := by
  have hmem : ∃ qu ∈ c8Quiz.questions,
      qu.id = ("beefbeefbeefbeefbeefbeefbeefbeef".data) := by decide
  have h := submit_answer_validates_and_overwrites c8Sd
    ("facefacefacefacefacefacefaceface".data)
    ("beefbeefbeefbeefbeefbeefbeefbeef".data) ['n', 'e', 'w']
    ("aaaaaaaaaaaaaaaaaaaaaaaaaaaaaaaa".data) c8Quiz
    (by decide) (by decide) (by decide)
  exact ⟨by decide, by decide, by decide, hmem, (h.2 hmem).2.1,
    (h.2 hmem).2.2 (by decide)⟩

/-- C10: a `submit_answer` request whose `quiz_id` or `question_id` is not
a syntactically valid UUID is rejected with the 400 invalid-format error
before any quiz or question lookup, leaving the session unchanged — even
when the malformed identifier is a known quiz key, so a non-UUID-shaped
unknown identifier can never produce `NotFoundError`. -/
theorem submit_answer_uuid_validation_first (sd : Server2.SessionData)
    (quiz_id question_id ans : Str)
    (h : pyUUIDValid quiz_id = false ∨ pyUUIDValid question_id = false) :
    Server2.submit_answer_route sd quiz_id question_id ans =
      (sd, .badRequest Server2.msgBadId) := by
  unfold Server2.submit_answer_route
  rcases h with h | h
  · rw [if_pos (by simp [h])]
  · rw [if_pos (by simp [h])]

/-- Witness for C10's theorem: the session even holds a quiz stored under
the malformed key, yet the request is rejected with 400, not 404. -/
theorem submit_answer_uuid_validation_first_witness :
    pyUUIDValid ['a', 'b'] = false ∧
    Server2.submit_answer_route
      ⟨0, 0, [], false, [(['a', 'b'], ⟨[], [], 0⟩)]⟩ ['a', 'b']
      ("beefbeefbeefbeefbeefbeefbeefbeef".data) ['x'] =
      (⟨0, 0, [], false, [(['a', 'b'], ⟨[], [], 0⟩)]⟩,
        .badRequest Server2.msgBadId) :=
  ⟨by decide, submit_answer_uuid_validation_first
    ⟨0, 0, [], false, [(['a', 'b'], ⟨[], [], 0⟩)]⟩ ['a', 'b']
    ("beefbeefbeefbeefbeefbeefbeefbeef".data) ['x'] (Or.inl (by decide))⟩

namespace Server2

theorem buildQuestions_length (fresh_ids : Nat → Str) :
    ∀ (i : Nat) (lines : List Str),
      (buildQuestions fresh_ids i lines).length = lines.length := by
  intro i lines
  induction lines generalizing i with
  | nil => rfl
  | cons line rest ih => simp [buildQuestions, ih]

theorem buildQuestions_map_question (fresh_ids : Nat → Str) :
    ∀ (i : Nat) (lines : List Str),
      (buildQuestions fresh_ids i lines).map (fun qu => qu.question) = lines := by
  intro i lines
  induction lines generalizing i with
  | nil => rfl
  | cons line rest ih => simp [buildQuestions, ih]

theorem buildQuestions_map_id (fresh_ids : Nat → Str) :
    ∀ (i : Nat) (lines : List Str),
      (buildQuestions fresh_ids i lines).map (fun qu => qu.id) =
        (List.range' i lines.length).map fresh_ids := by
  intro i lines
  induction lines generalizing i with
  | nil => rfl
  | cons line rest ih => simp [buildQuestions, ih, List.range'_succ]

end Server2

/-- C9: `generate_questions` returns exactly
`min(requested_count, generated_line_count)` questions, where the generated
line count is the number of non-blank lines of the generation response;
the questions carry, in order, exactly the (stripped) line texts, and their
freshly drawn identifiers are pairwise distinct. -/
theorem generate_questions_count_min (fresh_ids : Nat → Str) (answer_text : Str)
    (num_questions : Nat) (hinj : Function.Injective fresh_ids) :
    (Server2.generate_questions fresh_ids answer_text num_questions).length =
      min num_questions (Server2.usableLines answer_text).length ∧
    (Server2.generate_questions fresh_ids answer_text num_questions).map
      (fun qu => qu.question) =
      (Server2.usableLines answer_text).take num_questions ∧
    ((Server2.generate_questions fresh_ids answer_text num_questions).map
      (fun qu => qu.id)).Nodup := by
  unfold Server2.generate_questions
  refine ⟨?_, ?_, ?_⟩
  · rw [List.length_take, Server2.buildQuestions_length]
  · rw [List.map_take, Server2.buildQuestions_map_question]
  · rw [List.map_take]
    refine List.Nodup.sublist (List.take_sublist _ _) ?_
    rw [Server2.buildQuestions_map_id]
    exact (List.nodup_range' _ _).map hinj

/-- Witness for C9's theorem: a two-line response truncated to one
requested question. -/
theorem generate_questions_count_min_witness :
    Function.Injective (fun i : Nat => List.replicate i 'x') ∧
    ((Server2.generate_questions (fun i : Nat => List.replicate i 'x')
        ("Q1\nQ2".data) 1).length =
      min 1 (Server2.usableLines ("Q1\nQ2".data)).length ∧
    (Server2.generate_questions (fun i : Nat => List.replicate i 'x')
        ("Q1\nQ2".data) 1).map (fun qu => qu.question) =
      (Server2.usableLines ("Q1\nQ2".data)).take 1 ∧
    ((Server2.generate_questions (fun i : Nat => List.replicate i 'x')
        ("Q1\nQ2".data) 1).map (fun qu => qu.id)).Nodup) := by
  have hinj : Function.Injective (fun i : Nat => List.replicate i 'x') := by
    intro a b h
    simpa using congrArg List.length h
  exact ⟨hinj, generate_questions_count_min _ _ 1 hinj⟩

/-- C2: a session whose elapsed time since last access exceeds the TTL is
removed by the next lookup under its old identifier, and the dependency
`get_session` transparently hands the client a brand-new session — under a
different, fresh identifier — whose conversational memory is empty, rather
than an error. -/
theorem expired_session_replaced_fresh (m : Server2.SessionManager) (now : Nat)
    (old fresh1 fresh2 : Str) (s : Server2.SessionData)
    (honempty : old ≠ [])
    (hlook : dictLookup m.sessions old = some s)
    (hexp : m.session_timeout < now - s.last_accessed)
    (hfresh : dictLookup m.sessions fresh2 = none) :
    dictLookup (Server2.get_session_dep m now (some old) fresh1 fresh2).1.sessions
      old = none ∧
    (Server2.get_session_dep m now (some old) fresh1 fresh2).2.1 = fresh2 ∧
    fresh2 ≠ old ∧
    (Server2.get_session_dep m now (some old) fresh1 fresh2).2.2 =
      some ⟨now, now, [], false, []⟩ := by
  have hne : fresh2 ≠ old := by
    intro h
    rw [h, hlook] at hfresh
    exact Option.noConfusion hfresh
  have hstep : Server2.get_session_dep m now (some old) fresh1 fresh2 =
      ({ m with sessions :=
          dictInsert (dictInsert (dictErase m.sessions old) fresh2
            ⟨now, now, [], false, []⟩) fresh2 ⟨now, now, [], false, []⟩ },
        fresh2, some ⟨now, now, [], false, []⟩) := by
    simp only [Server2.get_session_dep, Server2.SessionManager.get_session,
      Server2.SessionManager.create_session, honempty, hlook, hexp,
      dictLookup_insert_self, Nat.sub_self, Nat.not_lt_zero, if_true, if_false,
      ite_false, ite_true]
  refine ⟨?_, by rw [hstep], hne, by rw [hstep]⟩
  rw [hstep]
  show dictLookup (dictInsert (dictInsert (dictErase m.sessions old) fresh2
    ⟨now, now, [], false, []⟩) fresh2 ⟨now, now, [], false, []⟩) old = none
  rw [dictLookup_insert_ne _ _ _ _ hne.symm, dictLookup_insert_ne _ _ _ _ hne.symm,
    dictLookup_erase_self]

/-- Witness for C2's theorem: a manager with TTL 30 holding one session
last accessed at time 0, looked up at time 100. -/
theorem expired_session_replaced_fresh_witness :
    dictLookup (⟨[(['s'], ⟨0, 0, [], false, []⟩)], 30⟩ :
        Server2.SessionManager).sessions ['s'] = some ⟨0, 0, [], false, []⟩ ∧
    (⟨[(['s'], ⟨0, 0, [], false, []⟩)], 30⟩ :
        Server2.SessionManager).session_timeout < 100 - 0 ∧
    (dictLookup (Server2.get_session_dep ⟨[(['s'], ⟨0, 0, [], false, []⟩)], 30⟩
        100 (some ['s']) ['u'] ['t']).1.sessions ['s'] = none ∧
      (Server2.get_session_dep ⟨[(['s'], ⟨0, 0, [], false, []⟩)], 30⟩
        100 (some ['s']) ['u'] ['t']).2.1 = ['t'] ∧
      ['t'] ≠ ['s'] ∧
      (Server2.get_session_dep ⟨[(['s'], ⟨0, 0, [], false, []⟩)], 30⟩
        100 (some ['s']) ['u'] ['t']).2.2 = some ⟨100, 100, [], false, []⟩) := by
  refine ⟨by decide, by decide, ?_⟩
  exact expired_session_replaced_fresh ⟨[(['s'], ⟨0, 0, [], false, []⟩)], 30⟩
    100 ['s'] ['u'] ['t'] ⟨0, 0, [], false, []⟩
    (by decide) (by decide) (by decide) (by decide)

/-- C3 (amended): a `start_quiz` call whose generation response yields zero
usable questions does not fail — no `GenerationEmptyError` exists in the
code — but succeeds, creating and returning a quiz whose question list is
empty. -/
theorem start_quiz_empty_generation_creates_empty_quiz
    (vstore_ready : Bool) (sd : Server2.SessionData) (quiz_id : Str)
    (fresh_ids : Nat → Str) (answer_text : Str)
    (hempty : Server2.usableLines answer_text = [])
    (hch : sd.chain = true ∨ vstore_ready = true) :
    Server2.start_quiz vstore_ready sd quiz_id fresh_ids answer_text =
      .ok ({ sd with
              chain := true,
              active_quizzes := dictInsert sd.active_quizzes quiz_id ⟨[], [], 0⟩ },
            quiz_id, []) := by
  have hq : Server2.generate_questions fresh_ids answer_text 5 = [] := by
    unfold Server2.generate_questions
    rw [hempty]
    rfl
  have hguard : ¬ (¬ sd.chain ∧ ¬ vstore_ready) := by
    rcases hch with h | h <;> simp [h]
  unfold Server2.start_quiz
  rw [if_neg hguard]
  simp only [hq]
  by_cases hc : sd.chain
  · obtain ⟨ca, la, me, ch, aq⟩ := sd
    simp only at hc
    subst hc
    simp
  · simp [hc]

/-- C3 counterexample: with an initialized vectorstore and a generation
response containing no usable lines, `start_quiz` does not fail as the
claim states — it succeeds and stores a quiz with an empty question list
in the session. -/
theorem start_quiz_no_generation_error :
    Server2.start_quiz true ⟨0, 0, [], false, []⟩ ['q'] (fun _ => []) ['\n', ' '] =
      .ok (⟨0, 0, [], true, [(['q'], ⟨[], [], 0⟩)]⟩, ['q'], []) := by rfl

/-- C6: index construction is idempotent — a build issued after a
successful build is a no-op reporting "already initialized" and leaving the
stored vectorstore exactly as the first build left it, in both servers. -/
theorem vectorstore_build_idempotent (cs co : Nat) (texts texts2 : List Str)
    (st1 : Option VS) (ok1 : Bool) (msg1 : String)
    (h : Server3.initialize_global_vectorstore cs co texts none = (st1, ok1, msg1))
    (hok : ok1 = true) :
    Server3.initialize_global_vectorstore cs co texts2 st1 =
      (st1, true, Server3.msgAlreadyInit) ∧
    Server2.initialize_vectorstore cs co texts2 st1 = st1 := by
  subst hok
  unfold Server3.initialize_global_vectorstore at h
  dsimp only at h
  by_cases hg : pyStrip (combineTexts texts) = []
  · rw [if_pos hg] at h
    simp [Prod.ext_iff] at h
  · rw [if_neg hg] at h
    have hst : st1 =
        some (FAISS_from_texts (get_text_chunks cs co (combineTexts texts))) := by
      have := congrArg (fun p => p.1) h
      simpa using this.symm
    subst hst
    exact ⟨rfl, rfl⟩

/-- Witness for C6's theorem: building from a one-document corpus, then
building again, returns "already initialized" and the same index. -/
theorem vectorstore_build_idempotent_witness :
    Server3.initialize_global_vectorstore 1000 200 [ "hi".data ] none =
      (some [ ['h', 'i'] ], true, Server3.msgCreated) ∧
    (Server3.initialize_global_vectorstore 1000 200 [ "bye".data ]
        (some [ ['h', 'i'] ]) =
      (some [ ['h', 'i'] ], true, Server3.msgAlreadyInit) ∧
    Server2.initialize_vectorstore 1000 200 [ "bye".data ] (some [ ['h', 'i'] ]) =
      some [ ['h', 'i'] ]) :=
  ⟨by decide, vectorstore_build_idempotent 1000 200 [ "hi".data ] [ "bye".data ]
    (some [ ['h', 'i'] ]) true Server3.msgCreated (by decide) rfl⟩

namespace Server3

theorem insertPairDesc_ne_nil (p : Str × Nat) (l : List (Str × Nat)) :
    insertPairDesc p l ≠ [] := by
  cases l with
  | nil => simp [insertPairDesc]
  | cons q rest =>
    unfold insertPairDesc
    by_cases h : q.2 ≤ p.2 <;> simp [h]

theorem sortPairsDesc_eq_nil_iff (l : List (Str × Nat)) :
    sortPairsDesc l = [] ↔ l = [] := by
  cases l with
  | nil => simp [sortPairsDesc]
  | cons p rest =>
    constructor
    · intro h
      exact absurd h (insertPairDesc_ne_nil p (sortPairsDesc rest))
    · intro h
      exact absurd h (List.cons_ne_nil p rest)

theorem mem_insertPairDesc {x p : Str × Nat} :
    ∀ {l : List (Str × Nat)}, x ∈ insertPairDesc p l ↔ x = p ∨ x ∈ l := by
  intro l
  induction l with
  | nil => simp [insertPairDesc]
  | cons q rest ih =>
    unfold insertPairDesc
    by_cases h : q.2 ≤ p.2
    · simp [h]
    · simp only [h, if_false, List.mem_cons, ih]
      tauto

theorem insertPairDesc_cons_le {a b : Str × Nat} {t : List (Str × Nat)}
    (h : b.2 ≤ a.2) : insertPairDesc a (b :: t) = a :: b :: t := by
  show (if b.2 ≤ a.2 then a :: b :: t else b :: insertPairDesc a t) = a :: b :: t
  rw [if_pos h]

theorem insertPairDesc_cons_gt {a b : Str × Nat} {t : List (Str × Nat)}
    (h : ¬ b.2 ≤ a.2) : insertPairDesc a (b :: t) = b :: insertPairDesc a t := by
  show (if b.2 ≤ a.2 then a :: b :: t else b :: insertPairDesc a t) =
    b :: insertPairDesc a t
  rw [if_neg h]

theorem sortPairsDesc_head_max :
    ∀ (l : List (Str × Nat)) (hd : Str × Nat),
      (sortPairsDesc l).head? = some hd →
        ∀ x ∈ sortPairsDesc l, x.2 ≤ hd.2 := by
  intro l
  induction l with
  | nil => intro hd h; cases h
  | cons a rest ih =>
    intro hd hhd x hx
    have hs : sortPairsDesc (a :: rest) = insertPairDesc a (sortPairsDesc rest) := rfl
    rw [hs] at hhd hx
    cases hrest : sortPairsDesc rest with
    | nil =>
      rw [hrest] at hhd hx
      rw [show insertPairDesc a [] = [a] from rfl] at hhd hx
      have hhd' : a = hd := by simpa using hhd
      have hx' : x = a := by simpa using hx
      rw [hx', ← hhd']
    | cons b t =>
      rw [hrest] at hhd hx
      by_cases hba : b.2 ≤ a.2
      · rw [insertPairDesc_cons_le hba] at hhd hx
        have hhd' : a = hd := by simpa using hhd
        subst hhd'
        rcases List.mem_cons.mp hx with hxa | hxbt
        · subst hxa; exact Nat.le_refl _
        · have hxb : x.2 ≤ b.2 := by
            refine ih b ?_ x ?_
            · rw [hrest]; rfl
            · rw [hrest]; exact hxbt
          exact Nat.le_trans hxb hba
      · rw [insertPairDesc_cons_gt hba] at hhd hx
        have hhd' : b = hd := by simpa using hhd
        subst hhd'
        rcases List.mem_cons.mp hx with hxb | hxrest
        · subst hxb; exact Nat.le_refl _
        · rcases mem_insertPairDesc.mp hxrest with hxa | hxt
          · rw [hxa]
            exact Nat.le_of_lt (Nat.lt_of_not_le hba)
          · refine ih b ?_ x ?_
            · rw [hrest]; rfl
            · rw [hrest]; exact List.mem_cons_of_mem b hxt

theorem head?_take_succ {α : Type} (l : List α) (n : Nat) :
    (l.take (n + 1)).head? = l.head? := by
  cases l <;> rfl

theorem get_fuzzy_matches_ne_nil_iff (scoreFn : Str → Str → Nat) (w : Str)
    (corpus : List Str) :
    get_fuzzy_matches scoreFn w corpus ≠ [] ↔ ∃ v ∈ corpus, 80 ≤ scoreFn w v := by
  unfold get_fuzzy_matches extractBests
  rw [Ne, List.take_eq_nil_iff]
  simp only [sortPairsDesc_eq_nil_iff, List.filter_eq_nil_iff, List.mem_map]
  constructor
  · intro h
    rcases not_or.mp h with ⟨-, hfil⟩
    push_neg at hfil
    obtain ⟨p, ⟨v, hv, hp⟩, hscore⟩ := hfil
    refine ⟨v, hv, ?_⟩
    rw [← hp] at hscore
    simpa using hscore
  · rintro ⟨v, hv, hscore⟩ h
    rcases h with h5 | hfil
    · exact absurd h5 (by decide)
    · exact absurd (by simpa using hscore)
        (by simpa using hfil (v, scoreFn w v) ⟨v, hv, rfl⟩)

theorem report_entry_iff (scoreFn : Str → Str → Nat) (corpus : List Str)
    (word : Str) (e : FuzzyEntry) :
    (match get_fuzzy_matches scoreFn word corpus with
      | [] => none
      | m :: rest =>
        if m.1 = word then none
        else some (⟨word, m :: rest⟩ : FuzzyEntry)) = some e ↔
    (get_fuzzy_matches scoreFn word corpus ≠ [] ∧
      (get_fuzzy_matches scoreFn word corpus).head?.map Prod.fst ≠ some word ∧
      e = ⟨word, get_fuzzy_matches scoreFn word corpus⟩) := by
  cases hg : get_fuzzy_matches scoreFn word corpus with
  | nil => simp
  | cons m rest =>
    by_cases hm : m.1 = word
    · simp [hm]
    · simp only [hm, if_false, Option.some.injEq, List.head?_cons, Option.map_some,
        ne_eq, Option.some.injEq, List.cons_ne_nil, not_false_eq_true, true_and]
      constructor
      · intro h; exact ⟨by simpa using hm, h.symm⟩
      · rintro ⟨-, h⟩; exact h.symm

end Server3

/-- C4: the fuzzy-correction step returns the original question unchanged
(it never rewrites tokens itself), and its match report has an entry for a
token exactly when the token has vocabulary matches scoring at or above the
threshold 80 and the best such match (the head of the score-sorted match
list, which dominates every returned match) differs from the token. -/
theorem fuzzy_correction_report_iff (scoreFn : Str → Str → Nat) (question : Str)
    (corpus : List Str) (w : Str) (hd x : Str × Nat) :
    (Server3.process_with_fuzzy_matching scoreFn question corpus).1 = question ∧
    ((∃ e ∈ (Server3.process_with_fuzzy_matching scoreFn question corpus).2,
        e.original = w) ↔
      (w ∈ pySplitWhitespace (pyLower question) ∧
        (∃ v ∈ corpus, 80 ≤ scoreFn w v) ∧
        (Server3.get_fuzzy_matches scoreFn w corpus).head?.map Prod.fst ≠ some w)) ∧
    ((Server3.get_fuzzy_matches scoreFn w corpus).head? = some hd →
      x ∈ Server3.get_fuzzy_matches scoreFn w corpus → x.2 ≤ hd.2) := by
  refine ⟨rfl, ?_, ?_⟩
  · constructor
    · rintro ⟨e, he, horig⟩
      have he' : e ∈ (pySplitWhitespace (pyLower question)).filterMap (fun word =>
          match Server3.get_fuzzy_matches scoreFn word corpus with
          | [] => none
          | m :: rest =>
            if m.1 = word then none
            else some (⟨word, m :: rest⟩ : Server3.FuzzyEntry)) := he
      rw [List.mem_filterMap] at he'
      obtain ⟨word, hword, hfn⟩ := he'
      rw [Server3.report_entry_iff] at hfn
      obtain ⟨hne, hhead, hee⟩ := hfn
      have hwordw : word = w := by
        rw [hee] at horig
        exact horig
      subst hwordw
      exact ⟨hword,
        (Server3.get_fuzzy_matches_ne_nil_iff scoreFn word corpus).mp hne, hhead⟩
    · rintro ⟨hw, hex, hhead⟩
      refine ⟨⟨w, Server3.get_fuzzy_matches scoreFn w corpus⟩, ?_, rfl⟩
      show _ ∈ (pySplitWhitespace (pyLower question)).filterMap (fun word =>
        match Server3.get_fuzzy_matches scoreFn word corpus with
        | [] => none
        | m :: rest =>
          if m.1 = word then none
          else some (⟨word, m :: rest⟩ : Server3.FuzzyEntry))
      rw [List.mem_filterMap]
      refine ⟨w, hw, ?_⟩
      rw [Server3.report_entry_iff]
      exact ⟨(Server3.get_fuzzy_matches_ne_nil_iff scoreFn w corpus).mpr hex,
        hhead, rfl⟩
  · intro hhd hx
    have h1 : (Server3.sortPairsDesc
        ((corpus.map (fun c => (c, scoreFn w c))).filter
          (fun p => 80 ≤ p.2))).head? = some hd := by
      rw [← Server3.head?_take_succ (Server3.sortPairsDesc
        ((corpus.map (fun c => (c, scoreFn w c))).filter (fun p => 80 ≤ p.2))) 4]
      exact hhd
    exact Server3.sortPairsDesc_head_max _ hd h1 x (List.mem_of_mem_take hx)

/-- Witness for C4's theorem: the spec's own scenario — question
"What does Uber sell?" with "ubik" in the vocabulary and a scorer rating
"uber"/"ubik" at 80 — produces a report entry for "uber", and the question
itself is forwarded unchanged. -/
theorem fuzzy_correction_report_iff_witness :
    (Server3.process_with_fuzzy_matching
      (fun a b => if a = b then 100 else if a = ("uber".data) ∧ b = ("ubik".data) then 80 else 0)
      ("Uber sell".data) [ "ubik".data ]).1 = ("Uber sell".data) ∧
    ((∃ e ∈ (Server3.process_with_fuzzy_matching
        (fun a b => if a = b then 100 else if a = ("uber".data) ∧ b = ("ubik".data) then 80 else 0)
        ("Uber sell".data) [ "ubik".data ]).2, e.original = ("uber".data)) ↔
      (("uber".data) ∈ pySplitWhitespace (pyLower ("Uber sell".data)) ∧
        (∃ v ∈ [ "ubik".data ], 80 ≤
          (fun a b => if a = b then 100 else if a = ("uber".data) ∧ b = ("ubik".data) then 80 else 0)
            ("uber".data) v) ∧
        (Server3.get_fuzzy_matches
          (fun a b => if a = b then 100 else if a = ("uber".data) ∧ b = ("ubik".data) then 80 else 0)
          ("uber".data) [ "ubik".data ]).head?.map Prod.fst ≠ some ("uber".data))) ∧
    ((Server3.get_fuzzy_matches
        (fun a b => if a = b then 100 else if a = ("uber".data) ∧ b = ("ubik".data) then 80 else 0)
        ("uber".data) [ "ubik".data ]).head? = some ( "ubik".data, 80) →
      ( "ubik".data, 80) ∈ Server3.get_fuzzy_matches
        (fun a b => if a = b then 100 else if a = ("uber".data) ∧ b = ("ubik".data) then 80 else 0)
        ("uber".data) [ "ubik".data ] → ( "ubik".data, 80).2 ≤ ( "ubik".data, 80).2) :=
  fuzzy_correction_report_iff
    (fun a b => if a = b then 100 else if a = ("uber".data) ∧ b = ("ubik".data) then 80 else 0)
    ("Uber sell".data) [ "ubik".data ] ("uber".data) ( "ubik".data, 80) ( "ubik".data, 80)

/-- C5: when the fuzzy-correction step, the semantic rewriting step, or the
conversation chain on the corrected question fails, `handle_userinput`
swallows the failure and falls back to running the conversation chain on
the raw, uncorrected question; when that fallback produces an answer, the
request succeeds with it, the failure never reaching the caller (and the
session state is left as it was). -/
theorem ask_falls_back_to_raw_question
    (fz : Str → List Str → Except Server3.PyErr (Str × List Server3.FuzzyEntry))
    (st : Server3.UserState3) (q : Str)
    (sc : Str → Str → Except Server3.PyErr Str)
    (cc : Str → Except Server3.PyErr Str) (ans : Str)
    (hsc : st.semantic_chain = some sc) (hcc : st.chain = some cc)
    (hfail :
      (∃ e, fz q st.fuzzy_corpus = .error e) ∨
      (∃ fmq fm, fz q st.fuzzy_corpus = .ok (fmq, fm) ∧
        ∃ e, sc q (Server3.fuzzyMatchesStr fm) = .error e) ∨
      (∃ fmq fm pq, fz q st.fuzzy_corpus = .ok (fmq, fm) ∧
        sc q (Server3.fuzzyMatchesStr fm) = .ok pq ∧ ∃ e, cc pq = .error e))
    (hok : cc q = .ok ans) :
    Server3.handle_userinput fz st q = .ok (st, some ans) := by
  unfold Server3.handle_userinput
  rw [hsc, hcc]
  dsimp only
  rcases hfail with ⟨e, he⟩ | ⟨fmq, fm, hfm, e, he⟩ | ⟨fmq, fm, pq, hfm, hpq, e, he⟩
  · rw [he]
    dsimp only
    rw [hok]
  · rw [hfm]
    dsimp only
    rw [he]
    dsimp only
    rw [hok]
  · rw [hfm]
    dsimp only
    rw [hpq]
    dsimp only
    rw [he]
    dsimp only
    rw [hok]

/-- Witness for C5's theorem: a semantic chain that always fails, with a
conversation chain that answers by prefixing 'A'; the request still
succeeds with the answer to the raw question, and the state is unchanged. -/
theorem ask_falls_back_to_raw_question_witness :
    ((fun (_ : Str) (_ : Str) =>
        (Except.error Server3.PyErr.chainError : Except Server3.PyErr Str))
      ("hi".data) (Server3.fuzzyMatchesStr []) =
        .error Server3.PyErr.chainError) ∧
    Server3.handle_userinput (fun s _ => .ok (s, []))
      ⟨[], some (fun s => .ok ('A' :: s)),
        some (fun _ _ => .error .chainError), [], []⟩ ("hi".data) =
      .ok (⟨[], some (fun s => .ok ('A' :: s)),
        some (fun _ _ => .error .chainError), [], []⟩, some ('A' :: "hi".data)) :=
  ⟨rfl, ask_falls_back_to_raw_question _ _ _ _ _ _ rfl rfl
    (Or.inr (Or.inl ⟨ "hi".data, [], rfl, .chainError, rfl⟩)) rfl⟩

/-! ## Lemmas for C7: an all-whitespace corpus yields no chunks and the
build's emptiness guard fires -/

theorem joinPieces_mem_subset (sep : Str) :
    ∀ (L : List Str) (s : Str), s ∈ L → ∀ c ∈ s, c ∈ joinPieces sep L := by
  intro L
  induction L with
  | nil => intro s hs; cases hs
  | cons p rest ih =>
    intro s hs c hc
    cases rest with
    | nil =>
      rcases List.mem_cons.mp hs with h | h
      · subst h; exact hc
      · cases h
    | cons q t =>
      show c ∈ p ++ sep ++ joinPieces sep (q :: t)
      rcases List.mem_cons.mp hs with h | h
      · subst h
        exact List.mem_append.mpr (Or.inl (List.mem_append.mpr (Or.inl hc)))
      · exact List.mem_append.mpr (Or.inr (ih s h c hc))

theorem mem_joinSep (sep : Char) :
    ∀ (L : List Str) (c : Char), c ∈ joinSep sep L →
      c = sep ∨ ∃ p ∈ L, c ∈ p := by
  intro L
  induction L with
  | nil => intro c hc; cases hc
  | cons p rest ih =>
    intro c hc
    cases rest with
    | nil =>
      right
      exact ⟨p, List.mem_cons_self p [], hc⟩
    | cons q t =>
      have hc' : c ∈ p ++ sep :: joinSep sep (q :: t) := hc
      rcases List.mem_append.mp hc' with h | h
      · right; exact ⟨p, List.mem_cons_self p (q :: t), h⟩
      · rcases List.mem_cons.mp h with h | h
        · left; exact h
        · rcases ih c h with h | ⟨r, hr, hcr⟩
          · left; exact h
          · right; exact ⟨r, List.mem_cons_of_mem p hr, hcr⟩

theorem joinDocs_none_allSpace (sep : Str) (L : List Str)
    (h : joinDocs sep L = none) : ∀ s ∈ L, allSpace s := by
  unfold joinDocs at h
  by_cases hs : pyStrip (joinPieces sep L) = []
  · intro s hsL c hc
    exact allSpace_of_pyStrip hs c (joinPieces_mem_subset sep L s hsL c hc)
  · rw [if_neg hs] at h
    cases h

theorem mergeStep_allSpace (cs co sl : Nat) (sep : Str) (st : MergeSt) (d : Str)
    (hdocs : (mergeStep cs co sl sep st d).docs = [])
    (hcur : ∀ s ∈ (mergeStep cs co sl sep st d).cur, allSpace s) :
    st.docs = [] ∧ (∀ s ∈ st.cur, allSpace s) ∧ allSpace d := by
  unfold mergeStep at hdocs hcur
  by_cases hover : cs < st.total + d.length + (if st.cur ≠ [] then sl else 0)
  · rw [if_pos hover] at hdocs hcur
    cases hc : st.cur with
    | nil =>
      rw [hc] at hdocs hcur
      dsimp only at hdocs hcur
      refine ⟨hdocs, ?_, hcur d (List.mem_cons_self d [])⟩
      intro s hs
      cases hs
    | cons c0 crest =>
      rw [hc] at hdocs hcur
      dsimp only at hdocs hcur
      cases hj : joinDocs sep (c0 :: crest) with
      | some doc =>
        rw [hj] at hdocs
        dsimp only at hdocs
        exact absurd hdocs (by simp)
      | none =>
        rw [hj] at hdocs
        dsimp only at hdocs
        exact ⟨hdocs, joinDocs_none_allSpace sep (c0 :: crest) hj,
          hcur d (List.mem_append.mpr (Or.inr (List.mem_cons_self d [])))⟩
  · rw [if_neg hover] at hdocs hcur
    dsimp only at hdocs hcur
    refine ⟨hdocs, ?_, ?_⟩
    · intro s hs
      exact hcur s (List.mem_append.mpr (Or.inl hs))
    · exact hcur d (List.mem_append.mpr (Or.inr (List.mem_cons_self d [])))

theorem mergeFold_allSpace (cs co sl : Nat) (sep : Str) :
    ∀ (splits : List Str) (st : MergeSt),
      (splits.foldl (mergeStep cs co sl sep) st).docs = [] →
      (∀ s ∈ (splits.foldl (mergeStep cs co sl sep) st).cur, allSpace s) →
      st.docs = [] ∧ (∀ s ∈ st.cur, allSpace s) ∧ ∀ s ∈ splits, allSpace s := by
  intro splits
  induction splits with
  | nil =>
    intro st h1 h2
    exact ⟨h1, h2, by simp⟩
  | cons d rest ih =>
    intro st h1 h2
    obtain ⟨hd1, hd2, hd3⟩ := ih (mergeStep cs co sl sep st d) h1 h2
    obtain ⟨hs1, hs2, hsd⟩ := mergeStep_allSpace cs co sl sep st d hd1 hd2
    refine ⟨hs1, hs2, ?_⟩
    intro s hs
    rcases List.mem_cons.mp hs with h | h
    · rw [h]; exact hsd
    · exact hd3 s h

theorem mergeSplits_eq_nil_allSpace (cs co sl : Nat) (sep : Str)
    (splits : List Str) (h : mergeSplits cs co sl sep splits = []) :
    ∀ s ∈ splits, allSpace s := by
  unfold mergeSplits at h
  dsimp only at h
  cases hj : joinDocs sep
      ((splits.foldl (mergeStep cs co sl sep) ⟨[], [], 0⟩).cur) with
  | some doc =>
    rw [hj] at h
    dsimp only at h
    exact absurd h (by simp)
  | none =>
    rw [hj] at h
    dsimp only at h
    exact (mergeFold_allSpace cs co sl sep splits ⟨[], [], 0⟩ h
      (joinDocs_none_allSpace sep _ hj)).2.2

theorem splits_allSpace_text (t : Str)
    (h : ∀ s ∈ splitTextPieces '\n' t, allSpace s) : allSpace t := by
  have hp : ∀ p ∈ pySplitChar '\n' t, allSpace p := by
    intro p hpm c hc
    by_cases hnil : p = []
    · subst hnil
      exact absurd hc (List.not_mem_nil c)
    · exact h p (List.mem_filter.mpr ⟨hpm, by simpa using hnil⟩) c hc
  intro c hc
  rw [← joinSep_pySplitChar '\n' t] at hc
  rcases mem_joinSep '\n' (pySplitChar '\n' t) c hc with hsep | ⟨p, hpmem, hcp⟩
  · rw [hsep]; decide
  · exact hp p hpmem c hcp

/-- C7: a corpus that is empty after splitting into chunks (the splitter
produces no chunks) makes the index build fail — the build returns the
failure flag with the "No text could be extracted" message and publishes no
index, which `startup_event` surfaces to the operator as a logged error. -/
theorem empty_corpus_build_fails (cs co : Nat) (texts : List Str)
    (h : get_text_chunks cs co (combineTexts texts) = []) :
    Server3.initialize_global_vectorstore cs co texts none =
      (none, false, Server3.msgNoText) := by
  have hsplits : ∀ s ∈ splitTextPieces '\n' (combineTexts texts), allSpace s :=
    mergeSplits_eq_nil_allSpace cs co 1 ['\n']
      (splitTextPieces '\n' (combineTexts texts)) h
  have hstrip : pyStrip (combineTexts texts) = [] :=
    pyStrip_of_allSpace (splits_allSpace_text _ hsplits)
  unfold Server3.initialize_global_vectorstore
  dsimp only
  rw [if_pos hstrip]

/-- Witness for C7's theorem: a one-document corpus whose extracted text is
a single space splits into zero chunks, and the build fails. -/
theorem empty_corpus_build_fails_witness :
    get_text_chunks 1000 200 (combineTexts [ [' '] ]) = [] ∧
    Server3.initialize_global_vectorstore 1000 200 [ [' '] ] none =
      (none, false, Server3.msgNoText) :=
  ⟨by decide, empty_corpus_build_fails 1000 200 [ [' '] ] (by decide)⟩

/-- Witness for C3's amended theorem: a blank two-line response yields an
empty stored quiz via a successful `start_quiz`. -/
theorem start_quiz_empty_generation_creates_empty_quiz_witness :
    Server2.usableLines ['\n', ' '] = [] ∧
    Server2.start_quiz true ⟨1, 2, [], false, []⟩ ['q'] (fun _ => []) ['\n', ' '] =
      .ok (⟨1, 2, [], true, [(['q'], ⟨[], [], 0⟩)]⟩, ['q'], []) :=
  ⟨by decide, start_quiz_empty_generation_creates_empty_quiz true
    ⟨1, 2, [], false, []⟩ ['q'] (fun _ => []) ['\n', ' '] (by decide) (Or.inr rfl)⟩
